import Mathlib

/-!
Shallow embedding of the reset subsystem of `drivers/net/mlx_sx/reset.c`
(Spectrum-SDK-Drivers).  Pure C functions become Lean functions; the
hardware, the PCI bus and the event subsystem are modelled as oracles
(functions from poll instants to observed values) supplied in environment
records.  Time is measured in milliseconds: each `msleep(1)` advances the
clock by one tick and reads are instantaneous, so `jiffies` arithmetic in
the source (`msecs_to_jiffies`, `time_before`) is carried out directly on
millisecond counters.
-/

namespace MlxSxReset

/-- Linux error codes used by `reset.c`, as an enumeration.  The C code
returns `0` on success and a negative errno on failure; here success is
`Option.none` and a failure is `Option.some e`. -/
inductive Errno where
  | etime
  | enomem
  | enodev
  | efault
  | einval
  | eother
  deriving DecidableEq

/-- Compile-time configuration of the driver build: `increasedTimeout`
models the `INCREASED_TIMEOUT` preprocessor flag, `pdBuQuantum3` models
`PD_BU && QUANTUM3_BU` (palladium bring-up). -/
structure Build where
  (increasedTimeout : Bool)
  (pdBuQuantum3 : Bool)
  deriving DecidableEq

/-- The production build: no `INCREASED_TIMEOUT`, no palladium flags. -/
def prodBuild : Build := ⟨false, false⟩

/-- PCI device identities the `switch` statements in `reset.c` dispatch on.
The code only ever compares `dev->pdev->device` against the named
`*_PCI_DEV_ID` constants, so an enumeration with one arm per constant plus
a catch-all `unsupported` arm is a faithful model of the dispatch. -/
inductive PciDevId where
  | switchX
  | spectrum
  | spectrum2
  | spectrum3
  | spectrum4
  | switchIB
  | switchIB2
  | quantum
  | quantum2
  | quantum3
  | unsupported
  deriving DecidableEq

/-- The families routed to `sdk_sx_reset` (register-protocol reset) by
`perform_dev_sw_reset`; SwitchX and unrecognized ids are not among them. -/
def isModern : PciDevId → Bool
  | .switchX => false
  | .unsupported => false
  | _ => true

/-- Constant `SX_SYSTEM_STATUS_REG_MASK`. -/
def SX_SYSTEM_STATUS_REG_MASK : Nat := 0xFF

/-- Constant `SX_SYSTEM_STATUS_ENABLED`. -/
def SX_SYSTEM_STATUS_ENABLED : Nat := 0x5E

/-- Constant `SX_SW_RESET_TIMEOUT_MSECS`: 5 seconds in production, 25 minutes when
compiled with `INCREASED_TIMEOUT`. -/
def SX_SW_RESET_TIMEOUT_MSECS (b : Build) : Nat :=
  if b.increasedTimeout then 25 * 60 * 1000 else 5 * 1000

/-- Constant `SX_RESET_TIMEOUT_JIFFIES` = 2*HZ, expressed in milliseconds. -/
def SX_RESET_TIMEOUT_MSECS : Nat := 2000

/-- Model of `__get_chip_reset_duration`: quantum families get 15 seconds,
spectrum-gen2/3/4 get 15 minutes, everything else the build default;
the `PD_BU && QUANTUM3_BU` build overrides the result with 20 minutes. -/
def __get_chip_reset_duration (b : Build) (dev : PciDevId) : Nat :=
  let duration :=
    match dev with
    | .quantum | .quantum2 | .quantum3 => 15 * 1000
    | .spectrum2 | .spectrum3 | .spectrum4 => 15 * 60 * 1000
    | _ => SX_SW_RESET_TIMEOUT_MSECS b
  if b.pdBuQuantum3 then 20 * 60 * 1000 else duration

/-- One mapped view of BAR0 for a single `__wait_for_system_ready` call:
whether `ioremap` of the system-status register succeeds, and the 32-bit
big-endian word `ioread32be` returns at each millisecond tick after the
call starts. -/
structure Bar0 where
  (mapOk : Bool)
  (statusAt : Nat → Nat)

/-- Result discriminator of `__wait_for_system_ready`: 0 with an elapsed
time, `-ETIME`, or `-ENOMEM` from the failed `ioremap`. -/
inductive WaitRes where
  | ok (elapsedMs : Nat)
  | timeout
  | mapFail
  deriving DecidableEq

/-- Observable outcome of one `__wait_for_system_ready` call: result, how
many status reads were issued, and how many `msleep(1)` calls ran. -/
structure PollOut where
  (res : WaitRes)
  (reads : Nat)
  (sleeps : Nat)
  deriving DecidableEq

/-- Map a poller result to the errno `__wait_for_system_ready` returns. -/
def errnoOfWait : WaitRes → Option Errno
  | .ok _ => none
  | .timeout => some .etime
  | .mapFail => some .enomem

/-- The do-while loop of `__wait_for_system_ready`.  `t` is the current
time in ms since `start` (so the recorded elapsed time on success is `t`);
`rem` is the number of loop re-entries still allowed, i.e. `end - (t+1)`
where `end = start + budget`: after an unsuccessful read at time `t` the
code sleeps 1 ms and re-enters only while `time_before(jiffies, end)`. -/
def pollLoop (m : Nat → Nat) (t reads sleeps rem : Nat) : PollOut :=
  if m t % 256 = SX_SYSTEM_STATUS_ENABLED then ⟨.ok t, reads + 1, sleeps⟩
  else
    match rem with
    | 0 => ⟨.timeout, reads + 1, sleeps + 1⟩
    | r + 1 => pollLoop m (t + 1) (reads + 1) (sleeps + 1) r

/-- Model of `__wait_for_system_ready(dev, budget, &time_waited)`: map the status
register (fallible), then poll the low byte of the big-endian status word
against `SX_SYSTEM_STATUS_ENABLED` with a 1 ms sleep between reads until
the budget elapses.  With `end = start + budget`, the first read happens
at `t = 0`, and after a failed read the loop re-enters while
`t + 1 < budget`, so the loop body can re-enter `budget - 1` more times. -/
def __wait_for_system_ready (bar : Bar0) (budget : Nat) : PollOut :=
  if bar.mapOk then pollLoop bar.statusAt 0 0 0 (budget - 1)
  else ⟨.mapFail, 0, 0⟩

theorem pollLoop_timeout (m : Nat → Nat) :
    ∀ (rem t reads sleeps : Nat),
      (∀ j, t ≤ j → j ≤ t + rem → m j % 256 ≠ SX_SYSTEM_STATUS_ENABLED) →
      pollLoop m t reads sleeps rem = ⟨.timeout, reads + rem + 1, sleeps + rem + 1⟩ := by
  intro rem
  induction rem with
  | zero =>
      intro t r s h
      unfold pollLoop
      simp [h t le_rfl (by omega)]
  | succ n ih =>
      intro t r s h
      unfold pollLoop
      rw [if_neg (h t le_rfl (by omega))]
      have := ih (t + 1) (r + 1) (s + 1) (fun j hj1 hj2 => h j (by omega) (by omega))
      show pollLoop m (t + 1) (r + 1) (s + 1) n = _
      rw [this]
      simp only [PollOut.mk.injEq, true_and]
      omega

theorem pollLoop_ok (m : Nat → Nat) :
    ∀ (rem t reads sleeps k : Nat), t ≤ k → k ≤ t + rem →
      m k % 256 = SX_SYSTEM_STATUS_ENABLED →
      (∀ j, t ≤ j → j < k → m j % 256 ≠ SX_SYSTEM_STATUS_ENABLED) →
      pollLoop m t reads sleeps rem = ⟨.ok k, reads + (k - t) + 1, sleeps + (k - t)⟩ := by
  intro rem
  induction rem with
  | zero =>
      intro t r s k h1 h2 hm _
      have hk : k = t := by omega
      subst hk
      unfold pollLoop
      simp [hm]
  | succ n ih =>
      intro t r s k h1 h2 hm hmin
      by_cases ht : m t % 256 = SX_SYSTEM_STATUS_ENABLED
      · have hk : k = t := by
          by_contra hne
          exact hmin t le_rfl (by omega) ht
        subst hk
        unfold pollLoop
        simp [ht]
      · have hk1 : t + 1 ≤ k := by
          rcases Nat.eq_or_lt_of_le h1 with h | h
          · exact absurd (h ▸ hm) ht
          · omega
        unfold pollLoop
        rw [if_neg ht]
        have := ih (t + 1) (r + 1) (s + 1) k hk1 (by omega) hm
          (fun j hj1 hj2 => hmin j (by omega) hj2)
        show pollLoop m (t + 1) (r + 1) (s + 1) n = _
        rw [this]
        simp only [PollOut.mk.injEq, true_and]
        omega

/-- C4 (amended): for a device whose status-register mapping succeeds, a
zero-budget `__wait_for_system_ready` performs exactly one status read; it
succeeds with elapsed time 0 and no sleep when the low byte of the first
read already equals `SX_SYSTEM_STATUS_ENABLED`, and otherwise performs a
single 1 ms sleep and returns the timeout error. -/
theorem C4_wait_ready_zero_budget (bar : Bar0) (hmap : bar.mapOk = true) :
    (__wait_for_system_ready bar 0).reads = 1 ∧
    (bar.statusAt 0 % 256 = SX_SYSTEM_STATUS_ENABLED →
      __wait_for_system_ready bar 0 = ⟨.ok 0, 1, 0⟩) ∧
    (bar.statusAt 0 % 256 ≠ SX_SYSTEM_STATUS_ENABLED →
      __wait_for_system_ready bar 0 = ⟨.timeout, 1, 1⟩) := by
  unfold __wait_for_system_ready pollLoop
  rcases eq_or_ne (bar.statusAt 0 % 256) SX_SYSTEM_STATUS_ENABLED with h | h <;>
    simp [hmap, h]

/-- A device that is never ready: every status read returns 0. -/
def neverReadyBar : Bar0 := ⟨true, fun _ => 0⟩

/-- C4 counterexample: with budget 0 and a first read that does not match
the sentinel, the poller executes one `msleep(1)` before deciding, so the
claim that the zero-budget call "never sleeps" is false on the code. -/
theorem C4_cex : ¬((__wait_for_system_ready neverReadyBar 0).sleeps = 0) := by decide

/-- C4 witness: the amended statement instantiated at `neverReadyBar`. -/
theorem C4_witness :
    (__wait_for_system_ready neverReadyBar 0).reads = 1 ∧
    (neverReadyBar.statusAt 0 % 256 = SX_SYSTEM_STATUS_ENABLED →
      __wait_for_system_ready neverReadyBar 0 = ⟨.ok 0, 1, 0⟩) ∧
    (neverReadyBar.statusAt 0 % 256 ≠ SX_SYSTEM_STATUS_ENABLED →
      __wait_for_system_ready neverReadyBar 0 = ⟨.timeout, 1, 1⟩) :=
  C4_wait_ready_zero_budget neverReadyBar rfl

/-- C5: with a nonzero budget (and a successful mapping, mapping failure
being a separate resource-exhaustion error per the spec), the poller
succeeds with elapsed time at most the budget whenever the masked status
byte equals the sentinel at some read before the deadline (reads happen at
milliseconds `0, 1, …, budget-1`, one 1 ms sleep between consecutive
reads, so `reads = elapsed + 1` and `sleeps = elapsed`), and times out
otherwise (after `budget` reads and `budget` sleeps). -/
theorem C5_wait_ready_nonzero (bar : Bar0) (budget : Nat)
    (hb : 1 ≤ budget) (hmap : bar.mapOk = true) :
    ((∃ k, k < budget ∧ bar.statusAt k % 256 = SX_SYSTEM_STATUS_ENABLED) →
      ∃ e, e ≤ budget ∧ __wait_for_system_ready bar budget = ⟨.ok e, e + 1, e⟩) ∧
    ((∀ k, k < budget → bar.statusAt k % 256 ≠ SX_SYSTEM_STATUS_ENABLED) →
      __wait_for_system_ready bar budget = ⟨.timeout, budget, budget⟩) := by
  constructor
  · intro hex
    classical
    let k0 := Nat.find hex
    have hspec := Nat.find_spec hex
    refine ⟨k0, by omega, ?_⟩
    unfold __wait_for_system_ready
    rw [if_pos hmap]
    have h := pollLoop_ok bar.statusAt (budget - 1) 0 0 0 k0
      (Nat.zero_le _) (by omega) hspec.2
      (fun j _ hj => by
        intro hcontra
        exact absurd ⟨hj.trans_le (by omega), hcontra⟩ (Nat.find_min hex hj))
    simpa using h
  · intro hall
    unfold __wait_for_system_ready
    rw [if_pos hmap]
    have h := pollLoop_timeout bar.statusAt (budget - 1) 0 0 0
      (fun j _ hj => hall j (by omega))
    rw [h]
    simp only [PollOut.mk.injEq, true_and]
    omega

/-- A device whose status becomes ready at millisecond 2. -/
def readyAt2Bar : Bar0 := ⟨true, fun t => if t = 2 then 0x5E else 0⟩

/-- C5 witness: at `readyAt2Bar` with budget 5 the poller succeeds with an
elapsed time of at most 5 (and `reads = elapsed + 1`, `sleeps = elapsed`). -/
theorem C5_witness :
    ∃ e, e ≤ 5 ∧ __wait_for_system_ready readyAt2Bar 5 = ⟨.ok e, e + 1, e⟩ :=
  (C5_wait_ready_nonzero readyAt2Bar 5 (by decide) rfl).1 ⟨2, by decide, by decide⟩

/-- C6: outside the palladium bring-up build, `__get_chip_reset_duration`
returns 15 000 ms for the quantum families, 900 000 ms for
spectrum-gen2/3/4, and the build's short default (`5 000` ms unless
`INCREASED_TIMEOUT`) for all other families including unsupported ids.
The model is a total pure function: no side effects, no failure modes. -/
theorem C6_reset_duration (b : Build) (hpd : b.pdBuQuantum3 = false) :
    (__get_chip_reset_duration b .quantum = 15000 ∧
     __get_chip_reset_duration b .quantum2 = 15000 ∧
     __get_chip_reset_duration b .quantum3 = 15000) ∧
    (__get_chip_reset_duration b .spectrum2 = 900000 ∧
     __get_chip_reset_duration b .spectrum3 = 900000 ∧
     __get_chip_reset_duration b .spectrum4 = 900000) ∧
    (__get_chip_reset_duration b .spectrum = SX_SW_RESET_TIMEOUT_MSECS b ∧
     __get_chip_reset_duration b .switchIB = SX_SW_RESET_TIMEOUT_MSECS b ∧
     __get_chip_reset_duration b .switchIB2 = SX_SW_RESET_TIMEOUT_MSECS b ∧
     __get_chip_reset_duration b .switchX = SX_SW_RESET_TIMEOUT_MSECS b ∧
     __get_chip_reset_duration b .unsupported = SX_SW_RESET_TIMEOUT_MSECS b) ∧
    (b.increasedTimeout = false → SX_SW_RESET_TIMEOUT_MSECS b = 5000) := by
  unfold __get_chip_reset_duration SX_SW_RESET_TIMEOUT_MSECS
  rcases b with ⟨it, pd⟩
  simp only at hpd
  subst hpd
  cases it <;> simp

/-- C6 witness: the production build instance. -/
theorem C6_witness :
    (__get_chip_reset_duration prodBuild .quantum = 15000 ∧
     __get_chip_reset_duration prodBuild .quantum2 = 15000 ∧
     __get_chip_reset_duration prodBuild .quantum3 = 15000) ∧
    (__get_chip_reset_duration prodBuild .spectrum2 = 900000 ∧
     __get_chip_reset_duration prodBuild .spectrum3 = 900000 ∧
     __get_chip_reset_duration prodBuild .spectrum4 = 900000) ∧
    (__get_chip_reset_duration prodBuild .spectrum = SX_SW_RESET_TIMEOUT_MSECS prodBuild ∧
     __get_chip_reset_duration prodBuild .switchIB = SX_SW_RESET_TIMEOUT_MSECS prodBuild ∧
     __get_chip_reset_duration prodBuild .switchIB2 = SX_SW_RESET_TIMEOUT_MSECS prodBuild ∧
     __get_chip_reset_duration prodBuild .switchX = SX_SW_RESET_TIMEOUT_MSECS prodBuild ∧
     __get_chip_reset_duration prodBuild .unsupported = SX_SW_RESET_TIMEOUT_MSECS prodBuild) ∧
    (prodBuild.increasedTimeout = false → SX_SW_RESET_TIMEOUT_MSECS prodBuild = 5000) :=
  C6_reset_duration prodBuild rfl

/-- Observable hardware actions of a reset session, each recording the
value of the in-progress flag `priv->dev_sw_rst_flow` at the moment the
action happens.  `waitCall` is one `__wait_for_system_ready` invocation
with its budget and outcome, `mrsrWrite` the MRSR register-protocol reset
command, `legacyWrite` the memory-mapped write of `__do_legacy_reset`, and
`vendorPollLoop` the vendor-id readback loop of `legacy_reset_SwitchX`. -/
inductive Event where
  | waitCall (budget : Nat) (out : PollOut) (flag : Bool)
  | mrsrWrite (flag : Bool)
  | legacyWrite (flag : Bool)
  | vendorPollLoop (flag : Bool)
  deriving DecidableEq

/-- The in-progress-flag value recorded on an event. -/
def evFlag : Event → Bool
  | .waitCall _ _ fl => fl
  | .mrsrWrite fl => fl
  | .legacyWrite fl => fl
  | .vendorPollLoop fl => fl

/-- Whether an event is a reset trigger (the window-opening action). -/
def isTrigger : Event → Bool
  | .mrsrWrite _ => true
  | .legacyWrite _ => true
  | _ => false

/-- Scanner for the in-progress-flag discipline over a single executor
trace: events before the trigger must record the flag false, the trigger
itself and every later event must record it true, and at most one trigger
occurs. -/
def scanStrict : Bool → List Event → Bool
  | _, [] => true
  | seen, e :: r =>
    if isTrigger e then !seen && evFlag e && scanStrict true r
    else if seen then evFlag e && scanStrict true r
    else !evFlag e && scanStrict false r

/-- Flag discipline of a whole executor trace, starting outside the
trigger-to-verdict window. -/
def windowOk (tr : List Event) : Bool := scanStrict false tr

/-- Oracle inputs of one `sdk_sx_reset` call: one BAR0 view per
`__wait_for_system_ready` invocation (pre-reset readiness check,
zero-budget post-trigger check, full completion wait) and the outcome of
the MRSR register write (`reset_dev_by_mrsr_reg`, whose only observable
behaviour here is the errno of `sx_ACCESS_REG_MRSR`). -/
structure SdkEnv where
  (preBar : Bar0)
  (zeroBar : Bar0)
  (fullBar : Bar0)
  (mrsrErr : Option Errno)

/-- Model of `sdk_sx_reset`: wait for readiness with the family budget, set the
in-progress flag, issue the MRSR reset, check with budget 0 that the
device is NOT immediately ready (anything other than `-ETIME` becomes
`-EFAULT` and aborts), then wait with the full budget; the flag is cleared
at `out:` on every path.  Returns (errno, event trace, flag on return);
`flagIn` is the flag value on entry. -/
def sdk_sx_reset (b : Build) (env : SdkEnv) (dev : PciDevId) (flagIn : Bool) :
    Option Errno × List Event × Bool :=
  let wait_for_reset := __get_chip_reset_duration b dev
  let pre := __wait_for_system_ready env.preBar wait_for_reset
  match errnoOfWait pre.res with
  | some e => (some e, [.waitCall wait_for_reset pre flagIn], false)
  | none =>
    match env.mrsrErr with
    | some e => (some e, [.waitCall wait_for_reset pre flagIn, .mrsrWrite true], false)
    | none =>
      let zero := __wait_for_system_ready env.zeroBar 0
      if errnoOfWait zero.res ≠ some .etime then
        (some .efault,
         [.waitCall wait_for_reset pre flagIn, .mrsrWrite true, .waitCall 0 zero true],
         false)
      else
        let full := __wait_for_system_ready env.fullBar wait_for_reset
        (errnoOfWait full.res,
         [.waitCall wait_for_reset pre flagIn, .mrsrWrite true, .waitCall 0 zero true,
          .waitCall wait_for_reset full true],
         false)

/-- Model of `__do_legacy_reset`: map the legacy trigger register (fallible), write
the byte-swapped sentinel, unmap, and sleep the fixed grace period.  The
observable trace is the trigger write; a failed mapping yields `-ENOMEM`
with no write. -/
def __do_legacy_reset (mapOk : Bool) (flag : Bool) : Option Errno × List Event :=
  if mapOk then (none, [.legacyWrite flag]) else (some .enomem, [])

/-- One iteration test of the vendor-id readback: the read must succeed
and the value must differ from the all-ones bus-invalid sentinel. -/
def vendorSeen (v : Nat → Option Nat) (t : Nat) : Bool :=
  match v t with
  | some w => w != 0xffff
  | none => false

/-- The vendor-id readback do-while loop (same shape as `pollLoop`): read
at millisecond `t`, break on a valid vendor id, otherwise sleep 1 ms and
re-enter while time remains (`rem` permitted re-entries). -/
def vendorLoop (v : Nat → Option Nat) (t rem : Nat) : Bool :=
  if vendorSeen v t then true
  else
    match rem with
    | 0 => false
    | r + 1 => vendorLoop v (t + 1) r

/-- Oracle inputs of `legacy_reset_SwitchX`: PCI presence, the legacy
trigger mapping, and the vendor-id config read at each millisecond of the
readback window (`none` models a failed `pci_read_config_word`). -/
structure LegacySwitchXEnv where
  (pdevPresent : Bool)
  (legacyMapOk : Bool)
  (vendorAt : Nat → Option Nat)

/-- Model of `legacy_reset_SwitchX`: legacy trigger write, then poll the vendor id
for up to `SX_RESET_TIMEOUT_JIFFIES` (2 s) until the device re-enumerates;
never touches `dev_sw_rst_flow`, so the flag is returned unchanged. -/
def legacy_reset_SwitchX (env : LegacySwitchXEnv) (flagIn : Bool) :
    Option Errno × List Event × Bool :=
  if env.pdevPresent then
    match __do_legacy_reset env.legacyMapOk flagIn with
    | (some e, tr) => (some e, tr, flagIn)
    | (none, tr) =>
      if vendorLoop env.vendorAt 0 (SX_RESET_TIMEOUT_MSECS - 1) then
        (none, tr ++ [.vendorPollLoop flagIn], flagIn)
      else (some .enodev, tr ++ [.vendorPollLoop flagIn], flagIn)
  else (some .enodev, [], flagIn)

/-- Oracle inputs of one `legacy_reset` call. -/
structure LegacyEnv where
  (pdevPresent : Bool)
  (preBar : Bar0)
  (fullBar : Bar0)
  (legacyMapOk : Bool)

/-- Model of `legacy_reset` (the fallback for modern families): doubles the family
budget, waits for readiness, sets the in-progress flag, performs the
legacy trigger write, waits again with the doubled budget, and clears the
flag at `out:` on every path. -/
def legacy_reset (b : Build) (env : LegacyEnv) (dev : PciDevId) (flagIn : Bool) :
    Option Errno × List Event × Bool :=
  if env.pdevPresent then
    let wait_for_reset := __get_chip_reset_duration b dev * 2
    let pre := __wait_for_system_ready env.preBar wait_for_reset
    match errnoOfWait pre.res with
    | some e => (some e, [.waitCall wait_for_reset pre flagIn], false)
    | none =>
      match __do_legacy_reset env.legacyMapOk true with
      | (some e, tr) => (some e, [.waitCall wait_for_reset pre flagIn] ++ tr, false)
      | (none, tr) =>
        let full := __wait_for_system_ready env.fullBar wait_for_reset
        (errnoOfWait full.res,
         [.waitCall wait_for_reset pre flagIn] ++ tr ++
           [.waitCall wait_for_reset full true],
         false)
  else (some .enodev, [], false)

/-- Oracle inputs of `perform_dev_sw_reset`: one environment per possible
executor invocation. -/
structure PerformEnv where
  (sdk : SdkEnv)
  (leg : LegacyEnv)
  (lsx : LegacySwitchXEnv)

/-- Model of `perform_dev_sw_reset`: SwitchX goes to the SwitchX legacy executor
(terminal), the modern families go to `sdk_sx_reset` with `legacy_reset`
as fallback on failure, and an unrecognized id fails with `-ENODEV`
without running any executor. -/
def perform_dev_sw_reset (b : Build) (env : PerformEnv) (dev : PciDevId) (flagIn : Bool) :
    Option Errno × List Event × Bool :=
  if dev = .switchX then legacy_reset_SwitchX env.lsx flagIn
  else if dev = .unsupported then (some .enodev, [], flagIn)
  else
    match sdk_sx_reset b env.sdk dev flagIn with
    | (none, tr, fl) => (none, tr, fl)
    | (some _, tr, fl) =>
      match legacy_reset b env.leg dev fl with
      | (e2, tr2, fl2) => (e2, tr ++ tr2, fl2)

theorem isModern_eq_true_iff (dev : PciDevId) :
    isModern dev = true ↔ (dev ≠ .switchX ∧ dev ≠ .unsupported) := by
  cases dev <;> simp [isModern]

theorem sdk_sx_reset_clears_flag (b : Build) (env : SdkEnv) (dev : PciDevId) (flagIn : Bool) :
    (sdk_sx_reset b env dev flagIn).2.2 = false := by
  simp only [sdk_sx_reset]
  rcases h1 : errnoOfWait
      (__wait_for_system_ready env.preBar (__get_chip_reset_duration b dev)).res with _ | e1
  · simp only [h1]
    rcases h2 : env.mrsrErr with _ | e2
    · simp only [h2]
      split <;> rfl
    · simp only [h2]
  · simp only [h1]

theorem legacy_reset_clears_flag (b : Build) (env : LegacyEnv) (dev : PciDevId) (flagIn : Bool) :
    (legacy_reset b env dev flagIn).2.2 = false := by
  simp only [legacy_reset]
  cases hp : env.pdevPresent
  · simp [hp]
  · simp only [hp]
    rcases h1 : errnoOfWait
        (__wait_for_system_ready env.preBar (__get_chip_reset_duration b dev * 2)).res with _ | e1
    · simp only [h1]
      rcases h2 : __do_legacy_reset env.legacyMapOk true with ⟨_ | e2, tr⟩ <;> simp [h2]
    · simp [h1]

theorem legacy_reset_keeps_flag_SwitchX (env : LegacySwitchXEnv) (flagIn : Bool) :
    (legacy_reset_SwitchX env flagIn).2.2 = flagIn := by
  simp only [legacy_reset_SwitchX]
  cases hp : env.pdevPresent
  · simp [hp]
  · simp only [hp]
    rcases h2 : __do_legacy_reset env.legacyMapOk flagIn with ⟨_ | e2, tr⟩ <;> simp only [h2]
    · cases hv : vendorLoop env.vendorAt 0 (SX_RESET_TIMEOUT_MSECS - 1) <;> simp [hv]
    · rfl

/-- C1: in `sdk_sx_reset`, once the pre-reset readiness wait and the MRSR
write succeed, any outcome of the zero-budget readiness check other than
the timeout error makes the call return `-EFAULT` ("device did not
actually reset"), with a trace of exactly three events: the full-budget
completion wait is never attempted. -/
theorem C1_unexpected_ready (b : Build) (env : SdkEnv) (dev : PciDevId) (flagIn : Bool)
    (hpre : errnoOfWait
      (__wait_for_system_ready env.preBar (__get_chip_reset_duration b dev)).res = none)
    (hmrsr : env.mrsrErr = none)
    (hzero : errnoOfWait (__wait_for_system_ready env.zeroBar 0).res ≠ some .etime) :
    sdk_sx_reset b env dev flagIn =
      (some .efault,
       [Event.waitCall (__get_chip_reset_duration b dev)
          (__wait_for_system_ready env.preBar (__get_chip_reset_duration b dev)) flagIn,
        Event.mrsrWrite true,
        Event.waitCall 0 (__wait_for_system_ready env.zeroBar 0) true],
       false) := by
  unfold sdk_sx_reset
  simp [hpre, hmrsr, hzero]

/-- A BAR0 view that always reads the enabled sentinel. -/
def readyBar : Bar0 := ⟨true, fun _ => 0x5E⟩

/-- A session where the device reads ready immediately after the MRSR
reset command. -/
def sdkEnvUnexpectedReady : SdkEnv := ⟨readyBar, readyBar, readyBar, none⟩

/-- C1 witness: the theorem instantiated at a session where the
zero-budget check reads the sentinel at once. -/
theorem C1_witness :
    sdk_sx_reset prodBuild sdkEnvUnexpectedReady .spectrum false =
      (some .efault,
       [Event.waitCall (__get_chip_reset_duration prodBuild .spectrum)
          (__wait_for_system_ready sdkEnvUnexpectedReady.preBar
            (__get_chip_reset_duration prodBuild .spectrum)) false,
        Event.mrsrWrite true,
        Event.waitCall 0 (__wait_for_system_ready sdkEnvUnexpectedReady.zeroBar 0) true],
       false) :=
  C1_unexpected_ready prodBuild sdkEnvUnexpectedReady .spectrum false
    (by decide) rfl (by decide)

/-- C10: from the same call site, a mapping failure of the zero-budget
check (the poller returns its distinct allocation error `-ENOMEM`) is also
converted into the single `-EFAULT` fault code and is not propagated. -/
theorem C10_zero_check_error_conversion (b : Build) (env : SdkEnv) (dev : PciDevId)
    (flagIn : Bool)
    (hpre : errnoOfWait
      (__wait_for_system_ready env.preBar (__get_chip_reset_duration b dev)).res = none)
    (hmrsr : env.mrsrErr = none)
    (hmap : env.zeroBar.mapOk = false) :
    (sdk_sx_reset b env dev flagIn).1 = some .efault := by
  have hz : __wait_for_system_ready env.zeroBar 0 = ⟨.mapFail, 0, 0⟩ := by
    unfold __wait_for_system_ready
    rw [hmap]
    simp
  simp only [sdk_sx_reset, hpre, hmrsr, hz]
  simp [errnoOfWait]

/-- A BAR0 view whose `ioremap` fails. -/
def mapFailBar : Bar0 := ⟨false, fun _ => 0⟩

/-- A session where mapping the status register fails at the zero-budget
post-trigger check. -/
def sdkEnvZeroMapFail : SdkEnv := ⟨readyBar, mapFailBar, readyBar, none⟩

/-- C10 witness: the mapping-failure conversion at a concrete session. -/
theorem C10_witness :
    (sdk_sx_reset prodBuild sdkEnvZeroMapFail .spectrum false).1 = some .efault :=
  C10_zero_check_error_conversion prodBuild sdkEnvZeroMapFail .spectrum false
    (by decide) rfl rfl

/-- C2: family dispatch of `perform_dev_sw_reset`.  For modern families
the register-protocol executor runs first and its success is final; on its
failure the legacy executor runs as fallback and decides the overall
outcome, and every readiness wait inside `legacy_reset` uses double the
policy budget.  SwitchX goes only to its legacy executor (failure
terminal), and an unrecognized family fails with `-ENODEV` and an empty
trace (no executor runs). -/
theorem C2_family_dispatch (b : Build) (env : PerformEnv) (dev : PciDevId) (flagIn : Bool) :
    (isModern dev = true →
      ((sdk_sx_reset b env.sdk dev flagIn).1 = none →
        perform_dev_sw_reset b env dev flagIn =
          (none, (sdk_sx_reset b env.sdk dev flagIn).2.1,
           (sdk_sx_reset b env.sdk dev flagIn).2.2)) ∧
      ((sdk_sx_reset b env.sdk dev flagIn).1 ≠ none →
        (perform_dev_sw_reset b env dev flagIn).1 =
          (legacy_reset b env.leg dev (sdk_sx_reset b env.sdk dev flagIn).2.2).1 ∧
        (perform_dev_sw_reset b env dev flagIn).2.1 =
          (sdk_sx_reset b env.sdk dev flagIn).2.1 ++
            (legacy_reset b env.leg dev (sdk_sx_reset b env.sdk dev flagIn).2.2).2.1)) ∧
    ((legacy_reset b env.leg dev flagIn).2.1.all
        (fun ev =>
          match ev with
          | .waitCall bud _ _ => bud == __get_chip_reset_duration b dev * 2
          | _ => true) = true) ∧
    (perform_dev_sw_reset b env PciDevId.switchX flagIn =
      legacy_reset_SwitchX env.lsx flagIn) ∧
    (perform_dev_sw_reset b env PciDevId.unsupported flagIn =
      (some Errno.enodev, [], flagIn)) := by
  refine ⟨?_, ?_, ?_, ?_⟩
  · intro hmod
    have hne := (isModern_eq_true_iff dev).1 hmod
    constructor
    · intro hok
      simp only [perform_dev_sw_reset, if_neg hne.1, if_neg hne.2]
      rcases hs : sdk_sx_reset b env.sdk dev flagIn with ⟨e, tr, fl⟩
      rw [hs] at hok
      simp only at hok
      subst hok
      simp [hs]
    · intro hfail
      simp only [perform_dev_sw_reset, if_neg hne.1, if_neg hne.2]
      rcases hs : sdk_sx_reset b env.sdk dev flagIn with ⟨e, tr, fl⟩
      rw [hs] at hfail
      simp only at hfail
      rcases e with _ | e0
      · simp at hfail
      · rcases hl : legacy_reset b env.leg dev fl with ⟨e2, tr2, fl2⟩
        simp [hs, hl]
  · simp only [legacy_reset]
    cases hp : env.leg.pdevPresent
    · simp [hp]
    · simp only [hp]
      rcases h1 : errnoOfWait
          (__wait_for_system_ready env.leg.preBar
            (__get_chip_reset_duration b dev * 2)).res with _ | e1
      · simp only [h1]
        cases hm : env.leg.legacyMapOk <;>
          simp [hm, __do_legacy_reset]
      · simp [h1]
  · simp [perform_dev_sw_reset]
  · simp [perform_dev_sw_reset]

/-- A legacy-reset environment in which everything succeeds at once. -/
def legEnvQuick : LegacyEnv := ⟨true, readyBar, readyBar, true⟩

/-- A SwitchX environment in which the trigger write succeeds and the
vendor id is valid at the first readback. -/
def lsxEnvQuick : LegacySwitchXEnv := ⟨true, true, fun _ => some 0x15b3⟩

/-- An `sdk_sx_reset` environment in which the register-protocol reset
fully succeeds: ready before reset, NOT ready right after the trigger,
ready again within the completion budget. -/
def sdkEnvGood : SdkEnv := ⟨readyBar, neverReadyBar, readyBar, none⟩

/-- Environments for a fully successful modern-family reset. -/
def perfEnvGood : PerformEnv := ⟨sdkEnvGood, legEnvQuick, lsxEnvQuick⟩

/-- C2 witness: on a spectrum device whose register-protocol reset
succeeds, `perform_dev_sw_reset` returns that success unchanged. -/
theorem C2_witness :
    perform_dev_sw_reset prodBuild perfEnvGood .spectrum false =
      (none, (sdk_sx_reset prodBuild perfEnvGood.sdk .spectrum false).2.1,
       (sdk_sx_reset prodBuild perfEnvGood.sdk .spectrum false).2.2) :=
  ((C2_family_dispatch prodBuild perfEnvGood .spectrum false).1 (by decide)).1 (by decide)

/-- C3 (amended): the in-progress flag is managed per executor window.  On
the register-protocol path (`sdk_sx_reset`) and the legacy fallback path
(`legacy_reset`) the recorded flag is false before the trigger, true at
the trigger and at every readiness check after it, and false again when
the executor returns.  The SwitchX executor, however, never sets the flag:
every event of its trace (including the trigger itself) records the flag
still false, and it is returned unchanged.  On every family
`perform_dev_sw_reset` returns with the flag false (given it was false on
entry). -/
theorem C3_flag_window (b : Build) (se : SdkEnv) (le : LegacyEnv) (xe : LegacySwitchXEnv)
    (pe : PerformEnv) (dev : PciDevId) :
    (windowOk (sdk_sx_reset b se dev false).2.1 = true ∧
     (sdk_sx_reset b se dev false).2.2 = false) ∧
    (windowOk (legacy_reset b le dev false).2.1 = true ∧
     (legacy_reset b le dev false).2.2 = false) ∧
    ((legacy_reset_SwitchX xe false).2.1.all (fun ev => !evFlag ev) = true ∧
     (legacy_reset_SwitchX xe false).2.2 = false) ∧
    ((perform_dev_sw_reset b pe dev false).2.2 = false) := by
  refine ⟨⟨?_, sdk_sx_reset_clears_flag b se dev false⟩,
          ⟨?_, legacy_reset_clears_flag b le dev false⟩,
          ⟨?_, legacy_reset_keeps_flag_SwitchX xe false⟩, ?_⟩
  · simp only [sdk_sx_reset]
    rcases h1 : errnoOfWait
        (__wait_for_system_ready se.preBar (__get_chip_reset_duration b dev)).res with _ | e1
    · simp only [h1]
      rcases h2 : se.mrsrErr with _ | e2
      · simp only [h2]
        by_cases hc : errnoOfWait (__wait_for_system_ready se.zeroBar 0).res ≠ some .etime <;>
          simp [hc, windowOk, scanStrict, evFlag, isTrigger]
      · simp [h2, windowOk, scanStrict, evFlag, isTrigger]
    · simp [h1, windowOk, scanStrict, evFlag, isTrigger]
  · simp only [legacy_reset]
    cases hp : le.pdevPresent
    · simp [hp, windowOk, scanStrict]
    · simp only [hp]
      rcases h1 : errnoOfWait
          (__wait_for_system_ready le.preBar
            (__get_chip_reset_duration b dev * 2)).res with _ | e1
      · simp only [h1]
        cases hm : le.legacyMapOk <;>
          simp [hm, __do_legacy_reset, windowOk, scanStrict, evFlag, isTrigger]
      · simp [h1, windowOk, scanStrict, evFlag, isTrigger]
  · simp only [legacy_reset_SwitchX]
    cases hp : xe.pdevPresent
    · simp [hp]
    · simp only [hp]
      cases hm : xe.legacyMapOk
      · simp [hm, __do_legacy_reset]
      · simp only [hm, __do_legacy_reset]
        cases hv : vendorLoop xe.vendorAt 0 (SX_RESET_TIMEOUT_MSECS - 1) <;>
          simp [hv, evFlag]
  · by_cases hsx : dev = .switchX
    · subst hsx
      simp only [perform_dev_sw_reset, if_pos rfl]
      exact legacy_reset_keeps_flag_SwitchX pe.lsx false
    · by_cases hun : dev = .unsupported
      · subst hun
        simp [perform_dev_sw_reset]
      · simp only [perform_dev_sw_reset, if_neg hsx, if_neg hun]
        rcases hs : sdk_sx_reset b pe.sdk dev false with ⟨e, tr, fl⟩
        have hfl : fl = false := by
          have h := sdk_sx_reset_clears_flag b pe.sdk dev false
          rw [hs] at h
          exact h
        subst hfl
        rcases e with _ | e0
        · simp
        · rcases hl : legacy_reset b pe.leg dev false with ⟨e2, tr2, fl2⟩
          have hfl2 : fl2 = false := by
            have h := legacy_reset_clears_flag b pe.leg dev false
            rw [hl] at h
            exact h
          simp [hl, hfl2]

/-- C3 counterexample: on the SwitchX path the in-progress flag is still
false at the legacy trigger write itself, so the claimed trigger-to-verdict
window with the flag true does not exist on this family. -/
theorem C3_cex : windowOk (legacy_reset_SwitchX lsxEnvQuick false).2.1 = false := by decide

/-- Constant `PCI_COMMAND`: byte offset of the PCI command register.  Standard PCI
configuration-space layout constant from the kernel's `pci_regs.h` (not
part of this repository), value 0x04: configuration word index 1. -/
def PCI_COMMAND : Nat := 0x04

/-- Constant `PCI_EXP_DEVCTL`: offset of the PCIe capability Device Control word
inside the capability block (`pci_regs.h`). -/
def PCI_EXP_DEVCTL : Nat := 8

/-- Constant `PCI_EXP_LNKCTL`: offset of the PCIe capability Link Control word
inside the capability block (`pci_regs.h`). -/
def PCI_EXP_LNKCTL : Nat := 16

/-- The save loop of `__save_headers_data`: for `i` from the current index
while fuel remains (entered with fuel 64 at index 0), skip indices 22 and
23, read config dword `i*4` into the header array, and abort with
`-ENODEV` on the first failed read.  Returns the errno, the indices read
(in order), and the final header array. -/
def saveLoop (ro : Nat → Bool) (rv : Nat → Nat) (i : Nat) (hdr : Nat → Nat) :
    Nat → Option Errno × List Nat × (Nat → Nat)
  | 0 => (none, [], hdr)
  | n + 1 =>
    if i = 22 ∨ i = 23 then saveLoop ro rv (i + 1) hdr n
    else if ro i then
      match saveLoop ro rv (i + 1) (fun j => if j = i then rv i else hdr j) n with
      | (e, l, h) => (e, i :: l, h)
    else (some .enodev, [], hdr)

/-- Model of `__save_headers_data`: zero the header buffer and run the 64-word save
loop.  `ro i` tells whether `pci_read_config_dword` at word `i` succeeds
and `rv i` the value it reads. -/
def __save_headers_data (ro : Nat → Bool) (rv : Nat → Nat) :
    Option Errno × List Nat × (Nat → Nat) :=
  saveLoop ro rv 0 (fun _ => 0) 64

/-- The index list the save loop reads when every read succeeds. -/
def savedIdxs (i : Nat) : Nat → List Nat
  | 0 => []
  | n + 1 => if i = 22 ∨ i = 23 then savedIdxs (i + 1) n else i :: savedIdxs (i + 1) n

theorem saveLoop_skips (ro : Nat → Bool) (rv : Nat → Nat) :
    ∀ (n i : Nat) (hdr : Nat → Nat),
      22 ∉ (saveLoop ro rv i hdr n).2.1 ∧ 23 ∉ (saveLoop ro rv i hdr n).2.1 := by
  intro n
  induction n with
  | zero => intro i hdr; simp [saveLoop]
  | succ m ih =>
      intro i hdr
      by_cases hi : i = 22 ∨ i = 23
      · simp only [saveLoop, if_pos hi]
        exact ih (i + 1) hdr
      · simp only [saveLoop, if_neg hi]
        cases hro : ro i
        · simp
        · rcases hrec : saveLoop ro rv (i + 1) (fun j => if j = i then rv i else hdr j) m
            with ⟨e, l, h⟩
          have := ih (i + 1) (fun j => if j = i then rv i else hdr j)
          rw [hrec] at this
          simp only at this
          push_neg at hi
          simp [hrec, this.1, this.2, Ne.symm hi.1, Ne.symm hi.2]

theorem saveLoop_all_ok (ro : Nat → Bool) (rv : Nat → Nat) :
    ∀ (n i : Nat) (hdr : Nat → Nat),
      (∀ j, i ≤ j → j < i + n → j ≠ 22 → j ≠ 23 → ro j = true) →
      (saveLoop ro rv i hdr n).1 = none ∧ (saveLoop ro rv i hdr n).2.1 = savedIdxs i n := by
  intro n
  induction n with
  | zero => intro i hdr _; simp [saveLoop, savedIdxs]
  | succ m ih =>
      intro i hdr hro
      by_cases hi : i = 22 ∨ i = 23
      · simp only [saveLoop, savedIdxs, if_pos hi]
        exact ih (i + 1) hdr (fun j h1 h2 => hro j (by omega) (by omega))
      · push_neg at hi
        have hroi : ro i = true := hro i le_rfl (by omega) hi.1 hi.2
        simp only [saveLoop, savedIdxs, if_neg (not_or.mpr ⟨hi.1, hi.2⟩), hroi, if_true]
        have := ih (i + 1) (fun j => if j = i then rv i else hdr j)
          (fun j h1 h2 => hro j (by omega) (by omega))
        rcases hrec : saveLoop ro rv (i + 1) (fun j => if j = i then rv i else hdr j) m
          with ⟨e, l, h⟩
        rw [hrec] at this
        simp only at this
        simp [this.1, this.2]

theorem saveLoop_aborts (ro : Nat → Bool) (rv : Nat → Nat) :
    ∀ (n i : Nat) (hdr : Nat → Nat),
      (∃ j, i ≤ j ∧ j < i + n ∧ j ≠ 22 ∧ j ≠ 23 ∧ ro j = false) →
      (saveLoop ro rv i hdr n).1 = some .enodev := by
  intro n
  induction n with
  | zero =>
      intro i hdr ⟨j, h1, h2, _⟩
      omega
  | succ m ih =>
      intro i hdr ⟨j, h1, h2, hj22, hj23, hjf⟩
      by_cases hi : i = 22 ∨ i = 23
      · simp only [saveLoop, if_pos hi]
        refine ih (i + 1) hdr ⟨j, ?_, by omega, hj22, hj23, hjf⟩
        rcases hi with hi | hi <;> omega
      · simp only [saveLoop, if_neg hi]
        cases hro : ro i
        · simp
        · have hji : j ≠ i := fun h => by rw [h, hro] at hjf; cases hjf
          rcases hrec : saveLoop ro rv (i + 1) (fun j2 => if j2 = i then rv i else hdr j2) m
            with ⟨e, l, h⟩
          have := ih (i + 1) (fun j2 => if j2 = i then rv i else hdr j2)
            ⟨j, by omega, by omega, hj22, hj23, hjf⟩
          rw [hrec] at this
          simp only at this
          simp [hrec, this]

/-- A single restore write: `word` is a 16-bit `pci_write_config_word`,
`dword` a 32-bit `pci_write_config_dword`, at a byte offset with a value. -/
inductive CfgWrite where
  | word (off : Nat) (val : Nat)
  | dword (off : Nat) (val : Nat)
  deriving DecidableEq

/-- Oracle inputs of `__restore_headers_data`: the PCIe capability offset
returned by `pci_find_capability` (0 means absent) and whether each config
write succeeds, per byte offset and width. -/
structure RestoreEnv where
  (pcieCap : Nat)
  (wordOk : Nat → Bool)
  (dwordOk : Nat → Bool)

/-- The restore loop of `__restore_headers_data`: for `i` from the current
index while fuel remains (entered with fuel 16 at index 0), skip the word
whose byte offset `i*4` is `PCI_COMMAND`, write header word `i` to offset
`i*4`, and abort with `-ENODEV` on the first failed write (the failed
attempt is recorded in the trace). -/
def restoreLoop (dwOk : Nat → Bool) (hdr : Nat → Nat) (i : Nat) :
    Nat → Option Errno × List CfgWrite
  | 0 => (none, [])
  | n + 1 =>
    if i * 4 = PCI_COMMAND then restoreLoop dwOk hdr (i + 1) n
    else if dwOk (i * 4) then
      match restoreLoop dwOk hdr (i + 1) n with
      | (e, l) => (e, .dword (i * 4) (hdr i) :: l)
    else (some .enodev, [CfgWrite.dword (i * 4) (hdr i)])

/-- Model of `__restore_headers_data`: if the PCIe capability block is present,
first restore the 16-bit Device Control then Link Control words (values
truncated from the saved 32-bit array entries); then restore the first 16
configuration words except the command word; finally write the command
word, strictly last.  Any failed write aborts with `-ENODEV`.  Returns the
errno and the ordered trace of attempted writes. -/
def __restore_headers_data (env : RestoreEnv) (hdr : Nat → Nat) :
    Option Errno × List CfgWrite :=
  let capStep : Option Errno × List CfgWrite :=
    if env.pcieCap ≠ 0 then
      let w1 : CfgWrite :=
        .word (env.pcieCap + PCI_EXP_DEVCTL) (hdr ((env.pcieCap + PCI_EXP_DEVCTL) / 4) % 65536)
      if env.wordOk (env.pcieCap + PCI_EXP_DEVCTL) then
        let w2 : CfgWrite :=
          .word (env.pcieCap + PCI_EXP_LNKCTL) (hdr ((env.pcieCap + PCI_EXP_LNKCTL) / 4) % 65536)
        if env.wordOk (env.pcieCap + PCI_EXP_LNKCTL) then (none, [w1, w2])
        else (some .enodev, [w1, w2])
      else (some .enodev, [w1])
    else (none, [])
  match capStep with
  | (some e, l) => (some e, l)
  | (none, l0) =>
    match restoreLoop env.dwordOk hdr 0 16 with
    | (some e, l) => (some e, l0 ++ l)
    | (none, l) =>
      let wc : CfgWrite := .dword PCI_COMMAND (hdr (PCI_COMMAND / 4))
      if env.dwordOk PCI_COMMAND then (none, l0 ++ l ++ [wc])
      else (some .enodev, l0 ++ l ++ [wc])

/-- The writes the restore loop attempts when nothing fails. -/
def restoreLoopWrites (hdr : Nat → Nat) (i : Nat) : Nat → List CfgWrite
  | 0 => []
  | n + 1 =>
    if i * 4 = PCI_COMMAND then restoreLoopWrites hdr (i + 1) n
    else .dword (i * 4) (hdr i) :: restoreLoopWrites hdr (i + 1) n

/-- The two capability writes (empty when the capability is absent). -/
def capWrites (env : RestoreEnv) (hdr : Nat → Nat) : List CfgWrite :=
  if env.pcieCap ≠ 0 then
    [.word (env.pcieCap + PCI_EXP_DEVCTL) (hdr ((env.pcieCap + PCI_EXP_DEVCTL) / 4) % 65536),
     .word (env.pcieCap + PCI_EXP_LNKCTL) (hdr ((env.pcieCap + PCI_EXP_LNKCTL) / 4) % 65536)]
  else []

/-- The full ordered restore-write plan: capability words first, then the
config words without the command word, then the command word last. -/
def restoreFullWrites (env : RestoreEnv) (hdr : Nat → Nat) : List CfgWrite :=
  capWrites env hdr ++ restoreLoopWrites hdr 0 16 ++
    [.dword PCI_COMMAND (hdr (PCI_COMMAND / 4))]

theorem restoreLoop_all_ok (dwOk : Nat → Bool) (hdr : Nat → Nat) :
    ∀ (n i : Nat),
      (∀ j, i ≤ j → j < i + n → j * 4 ≠ PCI_COMMAND → dwOk (j * 4) = true) →
      restoreLoop dwOk hdr i n = (none, restoreLoopWrites hdr i n) := by
  intro n
  induction n with
  | zero => intro i _; simp [restoreLoop, restoreLoopWrites]
  | succ m ih =>
      intro i h
      by_cases hc : i * 4 = PCI_COMMAND
      · simp only [restoreLoop, restoreLoopWrites, if_pos hc]
        exact ih (i + 1) (fun j h1 h2 => h j (by omega) (by omega))
      · have hok : dwOk (i * 4) = true := h i le_rfl (by omega) hc
        simp only [restoreLoop, restoreLoopWrites, if_neg hc, hok, if_true]
        rw [ih (i + 1) (fun j h1 h2 => h j (by omega) (by omega))]

theorem restoreLoop_aborts (dwOk : Nat → Bool) (hdr : Nat → Nat) :
    ∀ (n i : Nat),
      (∃ j, i ≤ j ∧ j < i + n ∧ j * 4 ≠ PCI_COMMAND ∧ dwOk (j * 4) = false) →
      (restoreLoop dwOk hdr i n).1 = some .enodev := by
  intro n
  induction n with
  | zero =>
      intro i ⟨j, h1, h2, _⟩
      omega
  | succ m ih =>
      intro i ⟨j, h1, h2, hjc, hjf⟩
      by_cases hc : i * 4 = PCI_COMMAND
      · simp only [restoreLoop, if_pos hc]
        have hji : j ≠ i := fun h => by rw [h] at hjc; exact hjc hc
        exact ih (i + 1) ⟨j, by omega, by omega, hjc, hjf⟩
      · simp only [restoreLoop, if_neg hc]
        cases hro : dwOk (i * 4)
        · simp
        · have hji : j ≠ i := fun h => by rw [h, hro] at hjf; cases hjf
          rcases hrec : restoreLoop dwOk hdr (i + 1) m with ⟨e, l⟩
          have := ih (i + 1) ⟨j, by omega, by omega, hjc, hjf⟩
          rw [hrec] at this
          simp only at this
          simp [hrec, this]

theorem restoreLoop_none_complete (dwOk : Nat → Bool) (hdr : Nat → Nat) :
    ∀ (n i : Nat), (restoreLoop dwOk hdr i n).1 = none →
      (restoreLoop dwOk hdr i n).2 = restoreLoopWrites hdr i n := by
  intro n
  induction n with
  | zero => intro i _; simp [restoreLoop, restoreLoopWrites]
  | succ m ih =>
      intro i h
      by_cases hc : i * 4 = PCI_COMMAND
      · simp only [restoreLoop, restoreLoopWrites, if_pos hc] at h ⊢
        exact ih (i + 1) h
      · simp only [restoreLoop, restoreLoopWrites, if_neg hc] at h ⊢
        cases hro : dwOk (i * 4)
        · rw [hro] at h
          simp at h
        · rw [hro] at h
          rw [if_pos rfl] at h ⊢
          simp only at h ⊢
          rw [ih (i + 1) h]

theorem restoreLoop_trace_le_plan (dwOk : Nat → Bool) (hdr : Nat → Nat) :
    ∀ (n i : Nat), ∃ rest,
      restoreLoopWrites hdr i n = (restoreLoop dwOk hdr i n).2 ++ rest := by
  intro n
  induction n with
  | zero => intro i; exact ⟨[], by simp [restoreLoop, restoreLoopWrites]⟩
  | succ m ih =>
      intro i
      by_cases hc : i * 4 = PCI_COMMAND
      · simp only [restoreLoop, restoreLoopWrites, if_pos hc]
        exact ih (i + 1)
      · simp only [restoreLoop, restoreLoopWrites, if_neg hc]
        cases hro : dwOk (i * 4)
        · exact ⟨restoreLoopWrites hdr (i + 1) m, by simp⟩
        · simp only [if_true]
          rcases hrec : restoreLoop dwOk hdr (i + 1) m with ⟨e, l⟩
          rcases ih (i + 1) with ⟨rest, hrest⟩
          rw [hrec] at hrest
          simp only at hrest
          exact ⟨rest, by simp [hrest]⟩

/-- C7 (amended): the snapshot save reads the 64-word configuration window
skipping exactly indices 22 and 23 and aborts on any single read failure;
the restore writes Device Control then Link Control first when the
capability block is present, then the first 16 configuration words
verbatim except the command word — which is word index 1, byte offset 4
(`PCI_COMMAND`), not index 4 / offset 16 — written strictly last, aborting
on any single write failure with no rollback (the attempted-write trace is
always a prefix of the forward plan). -/
theorem C7_config_snapshot (ro : Nat → Bool) (rv : Nat → Nat) (env : RestoreEnv)
    (hdr : Nat → Nat) :
    (22 ∉ (__save_headers_data ro rv).2.1 ∧ 23 ∉ (__save_headers_data ro rv).2.1) ∧
    ((∀ j, j < 64 → j ≠ 22 → j ≠ 23 → ro j = true) →
      (__save_headers_data ro rv).1 = none ∧
      (__save_headers_data ro rv).2.1 =
        (List.range 64).filter (fun j => !(j == 22) && !(j == 23))) ∧
    ((∃ j, j < 64 ∧ j ≠ 22 ∧ j ≠ 23 ∧ ro j = false) →
      (__save_headers_data ro rv).1 = some .enodev) ∧
    (PCI_COMMAND = 4 ∧ PCI_COMMAND / 4 = 1) ∧
    ((env.pcieCap ≠ 0 → env.wordOk (env.pcieCap + PCI_EXP_DEVCTL) = true ∧
        env.wordOk (env.pcieCap + PCI_EXP_LNKCTL) = true) →
      (∀ i, i < 16 → env.dwordOk (i * 4) = true) →
      __restore_headers_data env hdr = (none, restoreFullWrites env hdr)) ∧
    ((restoreFullWrites env hdr).getLast? =
      some (CfgWrite.dword PCI_COMMAND (hdr (PCI_COMMAND / 4)))) ∧
    (env.pcieCap ≠ 0 → env.wordOk (env.pcieCap + PCI_EXP_DEVCTL) = false →
      (__restore_headers_data env hdr).1 = some .enodev) ∧
    (env.pcieCap ≠ 0 → env.wordOk (env.pcieCap + PCI_EXP_DEVCTL) = true →
      env.wordOk (env.pcieCap + PCI_EXP_LNKCTL) = false →
      (__restore_headers_data env hdr).1 = some .enodev) ∧
    ((env.pcieCap ≠ 0 → env.wordOk (env.pcieCap + PCI_EXP_DEVCTL) = true ∧
        env.wordOk (env.pcieCap + PCI_EXP_LNKCTL) = true) →
      (∃ i, i < 16 ∧ env.dwordOk (i * 4) = false) →
      (__restore_headers_data env hdr).1 = some .enodev) ∧
    (∃ rest, restoreFullWrites env hdr = (__restore_headers_data env hdr).2 ++ rest) := by
  refine ⟨?_, ?_, ?_, ⟨rfl, rfl⟩, ?_, ?_, ?_, ?_, ?_, ?_⟩
  · simpa [__save_headers_data] using saveLoop_skips ro rv 64 0 (fun _ => 0)
  · intro h
    have hok := saveLoop_all_ok ro rv 64 0 (fun _ => 0)
      (fun j _ h2 hj22 hj23 => h j (by omega) hj22 hj23)
    refine ⟨hok.1, ?_⟩
    simp only [__save_headers_data, hok.2]
    decide
  · intro ⟨j, hj1, hj22, hj23, hjf⟩
    exact saveLoop_aborts ro rv 64 0 (fun _ => 0) ⟨j, by omega, by omega, hj22, hj23, hjf⟩
  · intro hcap hdw
    have hloop := restoreLoop_all_ok env.dwordOk hdr 16 0
      (fun j _ h2 hj => hdw j (by omega))
    have h4 : env.dwordOk PCI_COMMAND = true := by
      have := hdw 1 (by omega)
      simpa [PCI_COMMAND] using this
    by_cases hc : env.pcieCap ≠ 0
    · obtain ⟨hw1, hw2⟩ := hcap hc
      simp only [__restore_headers_data]
      rw [if_pos hc, if_pos hw1, if_pos hw2]
      simp only []
      rw [hloop]
      simp only []
      rw [if_pos h4]
      simp [restoreFullWrites, capWrites, hc]
    · simp only [__restore_headers_data]
      rw [if_neg hc]
      simp only []
      rw [hloop]
      simp only []
      rw [if_pos h4]
      simp [restoreFullWrites, capWrites, hc]
  · simp only [restoreFullWrites, ← List.append_assoc]
    exact List.getLast?_concat _
  · intro hc hw1f
    simp only [__restore_headers_data]
    rw [if_pos hc, if_neg (by simp [hw1f])]
  · intro hc hw1 hw2f
    simp only [__restore_headers_data]
    rw [if_pos hc, if_pos hw1, if_neg (by simp [hw2f])]
  · intro hcap ⟨i, hi, hif⟩
    by_cases hall : ∀ j, j < 16 → j * 4 ≠ PCI_COMMAND → env.dwordOk (j * 4) = true
    · have hicmd : i * 4 = PCI_COMMAND := by
        by_contra hne
        rw [hall i hi hne] at hif
        cases hif
      have h4f : env.dwordOk PCI_COMMAND = false := by
        rw [← hicmd]
        exact hif
      have hloop := restoreLoop_all_ok env.dwordOk hdr 16 0
        (fun j _ h2 hj => hall j (by omega) hj)
      by_cases hc : env.pcieCap ≠ 0
      · obtain ⟨hw1, hw2⟩ := hcap hc
        simp only [__restore_headers_data]
        rw [if_pos hc, if_pos hw1, if_pos hw2]
        simp only []
        rw [hloop]
        simp only []
        rw [if_neg (by simp [h4f])]
      · simp only [__restore_headers_data]
        rw [if_neg hc]
        simp only []
        rw [hloop]
        simp only []
        rw [if_neg (by simp [h4f])]
    · push_neg at hall
      obtain ⟨j, hj1, hj2, hj3⟩ := hall
      have hjf : env.dwordOk (j * 4) = false := by
        cases hh : env.dwordOk (j * 4)
        · rfl
        · exact absurd hh hj3
      have hloopf := restoreLoop_aborts env.dwordOk hdr 16 0 ⟨j, by omega, by omega, hj2, hjf⟩
      rcases hrec : restoreLoop env.dwordOk hdr 0 16 with ⟨e, l⟩
      rw [hrec] at hloopf
      simp only at hloopf
      subst hloopf
      by_cases hc : env.pcieCap ≠ 0
      · obtain ⟨hw1, hw2⟩ := hcap hc
        simp only [__restore_headers_data]
        rw [if_pos hc, if_pos hw1, if_pos hw2]
        simp only []
        rw [hrec]
      · simp only [__restore_headers_data]
        rw [if_neg hc]
        simp only []
        rw [hrec]
  · by_cases hc : env.pcieCap ≠ 0
    · by_cases hw1 : env.wordOk (env.pcieCap + PCI_EXP_DEVCTL) = true
      · by_cases hw2 : env.wordOk (env.pcieCap + PCI_EXP_LNKCTL) = true
        · rcases hrec : restoreLoop env.dwordOk hdr 0 16 with ⟨e, l⟩
          rcases e with _ | e0
          · have hcomp := restoreLoop_none_complete env.dwordOk hdr 16 0
            rw [hrec] at hcomp
            simp only at hcomp
            have hl := hcomp trivial
            subst hl
            simp only [__restore_headers_data]
            rw [if_pos hc, if_pos hw1, if_pos hw2]
            simp only []
            rw [hrec]
            simp only []
            by_cases h4 : env.dwordOk PCI_COMMAND = true
            · rw [if_pos h4]
              exact ⟨[], by simp [restoreFullWrites, capWrites, hc]⟩
            · rw [if_neg h4]
              exact ⟨[], by simp [restoreFullWrites, capWrites, hc]⟩
          · rcases restoreLoop_trace_le_plan env.dwordOk hdr 16 0 with ⟨rest, hrest⟩
            rw [hrec] at hrest
            simp only at hrest
            simp only [__restore_headers_data]
            rw [if_pos hc, if_pos hw1, if_pos hw2]
            simp only []
            rw [hrec]
            simp only []
            exact ⟨rest ++ [.dword PCI_COMMAND (hdr (PCI_COMMAND / 4))],
              by simp [restoreFullWrites, capWrites, hc, hrest]⟩
        · simp only [__restore_headers_data]
          rw [if_pos hc, if_pos hw1, if_neg hw2]
          simp only []
          exact ⟨restoreLoopWrites hdr 0 16 ++ [.dword PCI_COMMAND (hdr (PCI_COMMAND / 4))],
            by simp [restoreFullWrites, capWrites, hc]⟩
      · simp only [__restore_headers_data]
        rw [if_pos hc, if_neg hw1]
        simp only []
        exact ⟨[CfgWrite.word (env.pcieCap + PCI_EXP_LNKCTL)
            (hdr ((env.pcieCap + PCI_EXP_LNKCTL) / 4) % 65536)] ++
            restoreLoopWrites hdr 0 16 ++ [.dword PCI_COMMAND (hdr (PCI_COMMAND / 4))],
          by simp [restoreFullWrites, capWrites, hc]⟩
    · rcases hrec : restoreLoop env.dwordOk hdr 0 16 with ⟨e, l⟩
      rcases e with _ | e0
      · have hcomp := restoreLoop_none_complete env.dwordOk hdr 16 0
        rw [hrec] at hcomp
        simp only at hcomp
        have hl := hcomp trivial
        subst hl
        simp only [__restore_headers_data]
        rw [if_neg hc]
        simp only []
        rw [hrec]
        simp only []
        by_cases h4 : env.dwordOk PCI_COMMAND = true
        · rw [if_pos h4]
          exact ⟨[], by simp [restoreFullWrites, capWrites, hc]⟩
        · rw [if_neg h4]
          exact ⟨[], by simp [restoreFullWrites, capWrites, hc]⟩
      · rcases restoreLoop_trace_le_plan env.dwordOk hdr 16 0 with ⟨rest, hrest⟩
        rw [hrec] at hrest
        simp only at hrest
        simp only [__restore_headers_data]
        rw [if_neg hc]
        simp only []
        rw [hrec]
        simp only []
        exact ⟨rest ++ [.dword PCI_COMMAND (hdr (PCI_COMMAND / 4))],
          by simp [restoreFullWrites, capWrites, hc, hrest]⟩

/-- A restore environment with no capability block and all writes fine. -/
def allOkCapFreeEnv : RestoreEnv := ⟨0, fun _ => true, fun _ => true⟩

/-- C7 counterexample: with every write succeeding and the identity header
the attempted-write trace ends with the word at byte offset 4 (index 1),
while the offset-16 (index 4) word sits in the middle, refuting the
claimed "command word (index 4, i.e. offset 16) written last". -/
theorem C7_cex :
    (__restore_headers_data allOkCapFreeEnv (fun i => i)).2 =
      [CfgWrite.dword 0 0, CfgWrite.dword 8 2, CfgWrite.dword 12 3, CfgWrite.dword 16 4,
       CfgWrite.dword 20 5, CfgWrite.dword 24 6, CfgWrite.dword 28 7, CfgWrite.dword 32 8,
       CfgWrite.dword 36 9, CfgWrite.dword 40 10, CfgWrite.dword 44 11, CfgWrite.dword 48 12,
       CfgWrite.dword 52 13, CfgWrite.dword 56 14, CfgWrite.dword 60 15, CfgWrite.dword 4 1] ∧
    ((__restore_headers_data allOkCapFreeEnv (fun i => i)).2.getLast? =
      some (CfgWrite.dword 16 4) → False) := by decide

/-- C7 witness: a fully successful restore follows the forward plan with
the command word last. -/
theorem C7_witness :
    __restore_headers_data allOkCapFreeEnv (fun i => i) =
      (none, restoreFullWrites allOkCapFreeEnv (fun i => i)) :=
  (C7_config_snapshot (fun _ => true) (fun i => i) allOkCapFreeEnv (fun i => i)).2.2.2.2.1
    (fun h => absurd rfl h) (fun _ _ => rfl)

/-- Outcome of the trigger-gate block of `sx_reset`: how many 100 ms poll
sleeps ran, and whether the gate self-triggered (forced the flag) after
the 10 s timeout. -/
structure GateOut where
  (polls : Nat)
  (forced : Bool)
  deriving DecidableEq

/-- The trigger-wait while loop: the flag was observed false at poll 0
(the initial check), and `trigAt i` is the value observed at the check
after the i-th 100 ms sleep.  With `RESET_TRIGGER_TIMEOUT = 10*HZ` the
checks happen at 100 ms intervals up to 10 s, i.e. at `i = 1..100`; the
loop is entered at `i = 1` with fuel 99.  If the flag never reads true the
gate self-triggers (`reset_trigger = 1`) and proceeds. -/
def gateLoop (trigAt : Nat → Bool) (k : Nat) : Nat → GateOut
  | 0 => if trigAt k then ⟨k, false⟩ else ⟨k, true⟩
  | r + 1 => if trigAt k then ⟨k, false⟩ else gateLoop trigAt (k + 1) r

/-- The whole trigger-gate block: proceed at once when `reset_trigger` is
already set, otherwise poll every 100 ms for up to 10 seconds and force
the trigger on timeout. -/
def triggerGate (trig0 : Bool) (trigAt : Nat → Bool) : GateOut :=
  if trig0 then ⟨0, false⟩ else gateLoop trigAt 1 99

/-- Oracle inputs of one `sx_reset` call. -/
structure SxEnv where
  (devPresent : Bool)
  (eventAllocOk : Bool)
  (hcaAllocOk : Bool)
  (saveReadOk : Nat → Bool)
  (saveReadVal : Nat → Nat)
  (restoreEnv : RestoreEnv)
  (trig0 : Bool)
  (trigAt : Nat → Bool)
  (preResetErr : Option Errno)
  (postOverride : Option Errno → Option Errno)
  (perf : PerformEnv)
  (vendorAt : Nat → Option Nat)
  (ndBar : Bar0)
  (debugFwTraceBootFlow : Bool)

/-- Observable outcome of one `sx_reset` call: the returned errno, the
trigger-gate outcome (`none` when an early abort returns before the gate),
whether the pre-reset notification was issued, whether the post-reset
notification was issued, the error code carried in the post-reset payload,
the hardware event trace, and the in-progress flag on return. -/
structure SxOut where
  (err : Option Errno)
  (gate : Option GateOut)
  (preDispatched : Bool)
  (postDispatched : Bool)
  (postPayload : Option Errno)
  (events : List Event)
  (flag : Bool)
  deriving DecidableEq

/-- The `out:` epilogue of `sx_reset`: when the pre-reset notification was
issued (`is_pre_reset_event`), store the current errno in the post-reset
payload, dispatch the post-reset notification (whose own dispatch errno is
logged and then overwritten), and return the payload error as possibly
rewritten by a subscriber (`postOverride`); otherwise return the errno
as-is with no notification. -/
def finishOut (env : SxEnv) (e : Option Errno) (isPre : Bool) (g : GateOut)
    (evs : List Event) (fl : Bool) : SxOut :=
  if isPre then ⟨env.postOverride e, some g, true, true, e, evs, fl⟩
  else ⟨e, some g, false, false, none, evs, fl⟩

/-- The body of `sx_reset` after the trigger-gate block, given the saved
header array and the gate outcome.  Destructive path: pre-reset
notification (its failure aborts but the post-reset notification still
fires), `perform_dev_sw_reset`, a 2 s vendor-id readback, then the header
restore for SwitchX.  Non-destructive path: a single zero-budget readiness
check (suppressed by the debug flag) whose failure becomes `-ENODEV`,
then the SwitchX restore. -/
def sx_reset_after_gate (b : Build) (env : SxEnv) (dev : PciDevId) (pcr : Bool)
    (flag0 : Bool) (hdr : Nat → Nat) (g : GateOut) : SxOut :=
  if pcr then
    match env.preResetErr with
    | some e => finishOut env (some e) true g [] flag0
    | none =>
      match perform_dev_sw_reset b env.perf dev flag0 with
      | (some e, tr, fl) => finishOut env (some e) true g tr fl
      | (none, tr, fl) =>
        if vendorLoop env.vendorAt 0 (SX_RESET_TIMEOUT_MSECS - 1) then
          if dev = .switchX then
            match __restore_headers_data env.restoreEnv hdr with
            | (some e, _) => finishOut env (some e) true g tr fl
            | (none, _) => finishOut env none true g tr fl
          else finishOut env none true g tr fl
        else finishOut env (some .enodev) true g tr fl
  else
    let ndStep : Option Errno × List Event :=
      if env.debugFwTraceBootFlow then (none, [])
      else
        let nd := __wait_for_system_ready env.ndBar 0
        match errnoOfWait nd.res with
        | some _ => (some .enodev, [.waitCall 0 nd flag0])
        | none => (none, [.waitCall 0 nd flag0])
    match ndStep with
    | (some e, evs) => finishOut env (some e) false g evs flag0
    | (none, evs) =>
      if dev = .switchX then
        match __restore_headers_data env.restoreEnv hdr with
        | (some e, _) => finishOut env (some e) false g evs flag0
        | (none, _) => finishOut env none false g evs flag0
      else finishOut env none false g evs flag0

/-- Model of `sx_reset(dev, perform_chip_reset)`: device-presence check, event-data
allocation, SwitchX header allocation and save, then the trigger gate and
the rest of the flow.  Early aborts return before the gate and before any
notification. -/
def sx_reset (b : Build) (env : SxEnv) (dev : PciDevId) (pcr : Bool) (flag0 : Bool) : SxOut :=
  if env.devPresent then
    if env.eventAllocOk then
      let saveStep : Option Errno × (Nat → Nat) :=
        if dev = .switchX then
          if env.hcaAllocOk then
            match __save_headers_data env.saveReadOk env.saveReadVal with
            | (e, _, h) => (e, h)
          else (some .enomem, fun _ => 0)
        else (none, fun _ => 0)
      match saveStep with
      | (some e, _) => ⟨some e, none, false, false, none, [], flag0⟩
      | (none, hdr) =>
        sx_reset_after_gate b env dev pcr flag0 hdr (triggerGate env.trig0 env.trigAt)
    else ⟨some .enomem, none, false, false, none, [], flag0⟩
  else ⟨some .enodev, none, false, false, none, [], flag0⟩

theorem gateLoop_forced (trigAt : Nat → Bool) :
    ∀ (r k : Nat), (∀ j, k ≤ j → j ≤ k + r → trigAt j = false) →
      gateLoop trigAt k r = ⟨k + r, true⟩ := by
  intro r
  induction r with
  | zero =>
      intro k h
      simp [gateLoop, h k le_rfl (by omega)]
  | succ n ih =>
      intro k h
      have hk := h k le_rfl (by omega)
      simp only [gateLoop, hk]
      rw [if_neg (by simp)]
      rw [ih (k + 1) (fun j h1 h2 => h j (by omega) (by omega))]
      simp only [GateOut.mk.injEq]
      exact ⟨by omega, trivial⟩

theorem gateLoop_first (trigAt : Nat → Bool) :
    ∀ (r k j : Nat), k ≤ j → j ≤ k + r → trigAt j = true →
      (∀ i2, k ≤ i2 → i2 < j → trigAt i2 = false) →
      gateLoop trigAt k r = ⟨j, false⟩ := by
  intro r
  induction r with
  | zero =>
      intro k j h1 h2 hj _
      have hjk : j = k := by omega
      subst hjk
      simp [gateLoop, hj]
  | succ n ih =>
      intro k j h1 h2 hj hmin
      by_cases hk : trigAt k = true
      · have hjk : j = k := by
          by_contra hne
          have hf := hmin k le_rfl (by omega)
          rw [hf] at hk
          cases hk
        subst hjk
        simp [gateLoop, hj]
      · have hkf : trigAt k = false := by
          cases hh : trigAt k
          · rfl
          · exact absurd hh hk
        have hj1 : k + 1 ≤ j := by
          rcases Nat.eq_or_lt_of_le h1 with he | hlt
          · rw [he] at hkf
            rw [hkf] at hj
            cases hj
          · omega
        simp only [gateLoop, hkf]
        rw [if_neg (by simp)]
        exact ih (k + 1) j hj1 (by omega) hj (fun i2 ha hb => hmin i2 (by omega) hb)

theorem sx_reset_after_gate_gate (b : Build) (env : SxEnv) (dev : PciDevId) (pcr : Bool)
    (flag0 : Bool) (hdr : Nat → Nat) (g : GateOut) :
    (sx_reset_after_gate b env dev pcr flag0 hdr g).gate = some g := by
  simp only [sx_reset_after_gate]
  repeat' split
  all_goals simp [finishOut]

theorem sx_reset_after_gate_dispatch (b : Build) (env : SxEnv) (dev : PciDevId) (pcr : Bool)
    (flag0 : Bool) (hdr : Nat → Nat) (g : GateOut) :
    (sx_reset_after_gate b env dev pcr flag0 hdr g).preDispatched = pcr ∧
    (sx_reset_after_gate b env dev pcr flag0 hdr g).postDispatched = pcr ∧
    (pcr = true →
      (sx_reset_after_gate b env dev pcr flag0 hdr g).err =
        env.postOverride (sx_reset_after_gate b env dev pcr flag0 hdr g).postPayload) := by
  simp only [sx_reset_after_gate]
  repeat' split
  all_goals simp_all [finishOut]

theorem sx_reset_early_or_gate (b : Build) (env : SxEnv) (dev : PciDevId) (pcr : Bool)
    (flag0 : Bool) :
    ((sx_reset b env dev pcr flag0).preDispatched = false ∧
     (sx_reset b env dev pcr flag0).postDispatched = false) ∨
    (∃ hdr, sx_reset b env dev pcr flag0 =
      sx_reset_after_gate b env dev pcr flag0 hdr (triggerGate env.trig0 env.trigAt)) := by
  simp only [sx_reset]
  cases hd : env.devPresent
  · simp
  · cases ha : env.eventAllocOk
    · simp
    · rw [if_pos rfl, if_pos rfl]
      split
      · left
        simp
      · right
        exact ⟨_, rfl⟩

theorem sx_reset_reaches_gate (b : Build) (env : SxEnv) (dev : PciDevId) (pcr : Bool)
    (flag0 : Bool) (hdev : env.devPresent = true) (halloc : env.eventAllocOk = true)
    (hsx : dev = .switchX → env.hcaAllocOk = true ∧
      (__save_headers_data env.saveReadOk env.saveReadVal).1 = none) :
    ∃ hdr, sx_reset b env dev pcr flag0 =
      sx_reset_after_gate b env dev pcr flag0 hdr (triggerGate env.trig0 env.trigAt) := by
  by_cases hd : dev = .switchX
  · obtain ⟨hhca, hsave⟩ := hsx hd
    subst hd
    rcases hs : __save_headers_data env.saveReadOk env.saveReadVal with ⟨e, idxs, hh⟩
    rw [hs] at hsave
    simp only at hsave
    subst hsave
    refine ⟨hh, ?_⟩
    simp [sx_reset, hdev, halloc, hhca, hs]
  · refine ⟨fun _ => 0, ?_⟩
    simp [sx_reset, hdev, halloc, hd]

/-- C8 (amended): the trigger gate runs on every call that gets past the
presence/allocation/save steps, regardless of whether the destructive
phase was requested (the gate is not conditioned on `perform_chip_reset`).
Within the gate: an already-set trigger proceeds at once with zero polls;
an initially clear trigger is polled every 100 ms for up to 10 s (checks
1..100), stopping unforced at the first check that reads true; if no check
reads true the gate forces the trigger set and the flow proceeds anyway —
with a destructive request the pre-reset notification is still issued. -/
theorem C8_trigger_gate (b : Build) (env : SxEnv) (dev : PciDevId) (pcr : Bool) (flag0 : Bool)
    (hdev : env.devPresent = true) (halloc : env.eventAllocOk = true)
    (hsx : dev = .switchX → env.hcaAllocOk = true ∧
      (__save_headers_data env.saveReadOk env.saveReadVal).1 = none) :
    ((sx_reset b env dev pcr flag0).gate = some (triggerGate env.trig0 env.trigAt)) ∧
    (env.trig0 = true → triggerGate env.trig0 env.trigAt = ⟨0, false⟩) ∧
    (env.trig0 = false → (∀ k, 1 ≤ k → k ≤ 100 → env.trigAt k = false) →
      triggerGate env.trig0 env.trigAt = ⟨100, true⟩) ∧
    (env.trig0 = false → ∀ k, 1 ≤ k → k ≤ 100 → env.trigAt k = true →
      (∀ j, 1 ≤ j → j < k → env.trigAt j = false) →
      triggerGate env.trig0 env.trigAt = ⟨k, false⟩) ∧
    (pcr = true → (sx_reset b env dev pcr flag0).preDispatched = true) := by
  obtain ⟨hdr, hr⟩ := sx_reset_reaches_gate b env dev pcr flag0 hdev halloc hsx
  refine ⟨?_, ?_, ?_, ?_, ?_⟩
  · rw [hr]
    exact sx_reset_after_gate_gate b env dev pcr flag0 hdr _
  · intro h0
    simp [triggerGate, h0]
  · intro h0 hall
    simp only [triggerGate, h0]
    rw [if_neg (by simp)]
    rw [gateLoop_forced env.trigAt 99 1 (fun j h1 h2 => hall j h1 (by omega))]
  · intro h0 k hk1 hk2 hkt hmin
    simp only [triggerGate, h0]
    rw [if_neg (by simp)]
    exact gateLoop_first env.trigAt 99 1 k hk1 (by omega) hkt (fun j h1 h2 => hmin j h1 h2)
  · intro hp
    rw [hr]
    rw [(sx_reset_after_gate_dispatch b env dev pcr flag0 hdr
      (triggerGate env.trig0 env.trigAt)).1, hp]

/-- An environment with the trigger initially clear and never set: the
gate must poll its full 10 s window and self-trigger. -/
def sxEnvGatePoll : SxEnv :=
  ⟨true, true, true, fun _ => true, fun _ => 0, allOkCapFreeEnv, false, fun _ => false,
   none, id, perfEnvGood, fun _ => some 0x15b3, readyBar, false⟩

/-- C8 counterexample: on a NON-destructive call (`perform_chip_reset =
false`) the trigger gate still runs, polls its whole 10-second window (100
sleeps) and self-triggers — refuting "entered only when the caller
requests the destructive reset phase". -/
theorem C8_cex :
    (sx_reset prodBuild sxEnvGatePoll .spectrum false false).gate = some ⟨100, true⟩ := by
  decide

/-- C8 witness: the gate outcome of the same non-destructive call is the
trigger-gate function of the environment. -/
theorem C8_witness :
    (sx_reset prodBuild sxEnvGatePoll .spectrum false false).gate =
      some (triggerGate sxEnvGatePoll.trig0 sxEnvGatePoll.trigAt) :=
  (C8_trigger_gate prodBuild sxEnvGatePoll .spectrum false false rfl rfl
    (fun h => absurd h (by decide))).1

/-- C9 (amended): a post-reset notification is dispatched exactly when the
pre-reset notification was issued (the destructive path past the early
aborts); it carries the error code of the primary phase at `out:` and the
value returned to the caller is that payload as possibly overridden by a
subscriber.  Calls that never issued the pre-reset notification — every
non-destructive call and every early abort — dispatch no post-reset
notification. -/
theorem C9_post_reset_notification (b : Build) (env : SxEnv) (dev : PciDevId) (pcr : Bool)
    (flag0 : Bool) :
    ((sx_reset b env dev pcr flag0).preDispatched = true →
      (sx_reset b env dev pcr flag0).postDispatched = true ∧
      (sx_reset b env dev pcr flag0).err =
        env.postOverride ((sx_reset b env dev pcr flag0).postPayload)) ∧
    ((sx_reset b env dev pcr flag0).preDispatched = false →
      (sx_reset b env dev pcr flag0).postDispatched = false) ∧
    (pcr = false → (sx_reset b env dev pcr flag0).postDispatched = false) ∧
    (env.devPresent = true → env.eventAllocOk = true →
      (dev = .switchX → env.hcaAllocOk = true ∧
        (__save_headers_data env.saveReadOk env.saveReadVal).1 = none) →
      pcr = true → env.preResetErr = none →
      ∀ e, (perform_dev_sw_reset b env.perf dev flag0).1 = some e →
        (sx_reset b env dev pcr flag0).postPayload = some e ∧
        (sx_reset b env dev pcr flag0).err = env.postOverride (some e)) := by
  refine ⟨?_, ?_, ?_, ?_⟩
  · intro hpre
    rcases sx_reset_early_or_gate b env dev pcr flag0 with ⟨h1, h2⟩ | ⟨hdr, hr⟩
    · rw [hpre] at h1
      cases h1
    · rw [hr] at hpre ⊢
      have hd := sx_reset_after_gate_dispatch b env dev pcr flag0 hdr
        (triggerGate env.trig0 env.trigAt)
      rw [hd.1] at hpre
      exact ⟨by rw [hd.2.1, hpre], hd.2.2 hpre⟩
  · intro hpre
    rcases sx_reset_early_or_gate b env dev pcr flag0 with ⟨h1, h2⟩ | ⟨hdr, hr⟩
    · exact h2
    · rw [hr] at hpre ⊢
      have hd := sx_reset_after_gate_dispatch b env dev pcr flag0 hdr
        (triggerGate env.trig0 env.trigAt)
      rw [hd.2.1, ← hd.1]
      exact hpre
  · intro hp
    rcases sx_reset_early_or_gate b env dev pcr flag0 with ⟨h1, h2⟩ | ⟨hdr, hr⟩
    · exact h2
    · rw [hr]
      rw [(sx_reset_after_gate_dispatch b env dev pcr flag0 hdr
        (triggerGate env.trig0 env.trigAt)).2.1]
      exact hp
  · intro hdev halloc hsx hp hpre e hperf
    obtain ⟨hdr, hr⟩ := sx_reset_reaches_gate b env dev pcr flag0 hdev halloc hsx
    rw [hr]
    subst hp
    simp only [sx_reset_after_gate, if_true]
    simp only [hpre]
    rcases hps : perform_dev_sw_reset b env.perf dev flag0 with ⟨e2, tr, fl⟩
    rw [hps] at hperf
    simp only at hperf
    subst hperf
    simp [finishOut]

/-- An all-clear environment for a non-destructive call with the trigger
already set. -/
def sxEnvNoReset : SxEnv :=
  ⟨true, true, true, fun _ => true, fun _ => 0, allOkCapFreeEnv, true, fun _ => false,
   none, id, perfEnvGood, fun _ => some 0x15b3, readyBar, false⟩

/-- C9 counterexample: a non-destructive call to the entry point returns
without dispatching any post-reset notification, refuting "for every call
... a post-reset notification is always dispatched". -/
theorem C9_cex :
    (sx_reset prodBuild sxEnvNoReset .spectrum false false).postDispatched = false := by
  decide

/-- A primary phase that fails: the MRSR write errors and the legacy
fallback cannot run (PCI device not present), so `perform_dev_sw_reset`
returns `-ENODEV`. -/
def sdkEnvMrsrFail : SdkEnv := ⟨readyBar, neverReadyBar, readyBar, some .eother⟩

/-- A legacy environment with the PCI device absent. -/
def legEnvAbsent : LegacyEnv := ⟨false, readyBar, readyBar, true⟩

/-- Environments in which the whole primary reset phase fails. -/
def perfEnvFailing : PerformEnv := ⟨sdkEnvMrsrFail, legEnvAbsent, lsxEnvQuick⟩

/-- A destructive call whose primary phase fails with `-ENODEV`. -/
def sxEnvPrimaryFail : SxEnv :=
  ⟨true, true, true, fun _ => true, fun _ => 0, allOkCapFreeEnv, true, fun _ => false,
   none, id, perfEnvFailing, fun _ => some 0x15b3, readyBar, false⟩

/-- C9 witness: when the primary phase fails with `-ENODEV`, the post-reset
payload carries that code and the returned value is the subscriber
override of it. -/
theorem C9_witness :
    (sx_reset prodBuild sxEnvPrimaryFail .spectrum true false).postPayload =
      some Errno.enodev ∧
    (sx_reset prodBuild sxEnvPrimaryFail .spectrum true false).err =
      sxEnvPrimaryFail.postOverride (some Errno.enodev) :=
  (C9_post_reset_notification prodBuild sxEnvPrimaryFail .spectrum true false).2.2.2
    rfl rfl (fun h => absurd h (by decide)) rfl rfl Errno.enodev (by decide)

end MlxSxReset
